import Mathlib

/-!
Verification of the per-tenant OAuth2 endpoint composition and token-response
augmentation engine of the garage-door repository, as a shallow embedding.

The embedding follows the source files:
  * src/endpoints/issuer.rs — token endpoint dispatch (`token`), the
    ID-token amendment step (`amend_id_token`), issuer-URL construction
    (`issuer_url`), the discovery handler (`discovery`), and the per-request
    endpoint compositions (`with_conninfo`, `with_solicitor`);
  * src/server/mod.rs — the `Server` builder and `add_issuer`.

External collaborators (the oxide_auth protocol-engine flows, serde_json
parsing, JWT signing, and `ApplicationState::build_base`) are passed to the
embedded handlers as explicit function arguments, so every theorem quantifies
over their behaviour.  JSON values are embedded as an inductive type with
serde_json's indexing semantics: reading a key from a non-object yields
`null`; writing a key into a value that is neither `null` nor an object
panics, which the embedding models by returning `none`.
-/

/-- JSON value, mirroring serde_json's `Value`.  Numbers are embedded as
integers; none of the verified properties inspect numeric contents. -/
inductive JValue where
  | null
  | bool (b : Bool)
  | num (n : Int)
  | str (s : String)
  | arr (elems : List JValue)
  | obj (fields : List (String × JValue))

/-- Read access `value[key]` of serde_json: on an object, the value stored at
`key` or `Null` when absent; on every other shape, `Null` (never a panic). -/
def jget (v : JValue) (key : String) : JValue :=
  match v with
  | .obj fields =>
    match List.lookup key fields with
    | some x => x
    | none => .null
  | _ => .null

/-- `Value::as_str`: the payload of a JSON string, `none` otherwise. -/
def JValue.as_str : JValue → Option String
  | .str s => some s
  | _ => none

/-- Insertion into a JSON object's field list: replaces the value of an
existing key in place, appends a fresh key at the end. -/
def jinsertField : List (String × JValue) → String → JValue → List (String × JValue)
  | [], key, v => [(key, v)]
  | (k, w) :: fields, key, v =>
    if k = key then (key, v) :: fields else (k, w) :: jinsertField fields key v

/-- Write access `value[key] = x` of serde_json: `Null` becomes a fresh
one-field object, an object gets the field inserted, and every other shape
panics — modelled as `none`. -/
def jset (v : JValue) (key : String) (x : JValue) : Option JValue :=
  match v with
  | .null => some (.obj [(key, x)])
  | .obj fields => some (.obj (jinsertField fields key x))
  | _ => none

/-- Escape of one character of a JSON string body: backslash and double
quote; control-character escapes are not modelled, no verified property
serializes them. -/
def jStrEscapeChar (c : Char) : String :=
  if c = '\\' then "\\\\" else if c = '"' then "\\\"" else String.singleton c

/-- Escape of a JSON string body. -/
def jStrEscape (s : String) : String :=
  String.join (s.data.map jStrEscapeChar)

/-- Quoted JSON string. -/
def jStrQuote (s : String) : String := "\"" ++ jStrEscape s ++ "\""

mutual

/-- Serialization of a JSON value, mirroring `serde_json::to_string`. -/
def jToString : JValue → String
  | .null => "null"
  | .bool true => "true"
  | .bool false => "false"
  | .num n => toString n
  | .str s => jStrQuote s
  | .arr elems => "[" ++ jArrToString elems ++ "]"
  | .obj fields => "\x7b" ++ jObjToString fields ++ "\x7d"

/-- Comma-separated serialization of JSON array elements. -/
def jArrToString : List JValue → String
  | [] => ""
  | [x] => jToString x
  | x :: xs => jToString x ++ "," ++ jArrToString xs

/-- Comma-separated serialization of JSON object fields. -/
def jObjToString : List (String × JValue) → String
  | [] => ""
  | [(k, v)] => jStrQuote k ++ ":" ++ jToString v
  | (k, v) :: fields => jStrQuote k ++ ":" ++ jToString v ++ "," ++ jObjToString fields

end

/-- URL in the shape the `url` crate exposes to this code: an origin, a path
as a list of segments, and the cannot-be-a-base flag that makes
`path_segments_mut` fail. -/
structure Url where
  scheme : String
  host : String
  port : Option Nat
  pathSegments : List String
  cannotBeABase : Bool
deriving DecidableEq, Repr

/-- `PathSegmentsMut::push`: appends one segment to the path. -/
def Url.pushSegment (u : Url) (s : String) : Url :=
  { u with pathSegments := u.pathSegments ++ [s] }

/-- Textual rendering of a URL, for concrete checks. -/
def Url.render (u : Url) : String :=
  u.scheme ++ "://" ++ u.host ++
    (match u.port with
     | some p => ":" ++ toString p
     | none => "") ++
    "/" ++ String.intercalate "/" u.pathSegments

/-- `url::ParseError` values this code produces. -/
inductive UrlParseError where
  | RelativeUrlWithCannotBeABaseBase
deriving DecidableEq, Repr

/-- Opaque web-facing error of the oxide_auth frontend (`WebError`). -/
structure WebError where
  msg : String
deriving DecidableEq, Repr

/-- Modelled from the spec: the uniform web-facing error type of
`src/endpoints/mod.rs`, which is not under src/; its constructors follow the
spec's error taxonomy and the uses in src/endpoints/issuer.rs — unknown
tenant, protocol-engine (web) errors, URL construction errors, and generic
processing errors from assertion minting. -/
inductive Error where
  | UnknownIssuer (name : String)
  | Web (e : WebError)
  | Url (e : UrlParseError)
  | Generic (msg : String)
deriving DecidableEq, Repr

/-- Signing key of one tenant (`IssuerState.key`); opaque to this layer. -/
structure Key where
  id : Nat
deriving DecidableEq, Repr

/-- Per-tenant record (`IssuerState`): its name and its signing key.  The
engine state is reached only through the composition layer and carries no
data the verified properties inspect. -/
structure IssuerState where
  name : String
  key : Key
deriving DecidableEq, Repr

/-- Modelled from the spec: `ServerState`/`ApplicationState` of
`src/server/state.rs` is not under src/; the spec states the registry maps
tenant name to tenant record and lookup is by exact string match. -/
structure ApplicationState where
  issuers : List (String × IssuerState)

/-- Modelled from the spec: `ApplicationState::issuer`, lookup of a tenant
record by exact string match on its name. -/
def ApplicationState.issuer (st : ApplicationState) (name : String) : Option IssuerState :=
  List.lookup name st.issuers

/-- Embeds `issuer_url` of src/endpoints/issuer.rs: the base URL built from
the connection context with the tenant name pushed as a path segment;
`path_segments_mut` fails exactly on cannot-be-a-base URLs, which the source
maps to `RelativeUrlWithCannotBeABaseBase`.  The result of
`server.build_base(conn)` is passed in as `buildBase`. -/
def issuer_url (buildBase : Except Error Url) (issuer : String) : Except Error Url :=
  match buildBase with
  | .error e => .error e
  | .ok url =>
    if url.cannotBeABase then .error (.Url .RelativeUrlWithCannotBeABaseBase)
    else .ok (url.pushSegment issuer)

/-- Response of the oxide_auth actix frontend (`OAuthResponse`): status,
content type and optional textual body. -/
structure OAuthResponse where
  status : Nat
  contentType : Option String
  body : Option String
deriving DecidableEq, Repr

/-- `OAuthResponse::get_body`. -/
def OAuthResponse.get_body (r : OAuthResponse) : Option String := r.body

/-- `OAuthResponse::body_json`: replaces the body and sets the JSON content
type; header bookkeeping is handled by the response abstraction. -/
def OAuthResponse.body_json (r : OAuthResponse) (body : String) : OAuthResponse :=
  { r with contentType := some "application/json", body := some body }

/-- Embeds `amend_id_token` of src/endpoints/issuer.rs.  `parse` stands for
`serde_json::from_str`, `sign` for `JwtIdGenerator::new(key, url).create()`,
and `buildBase` for `server.build_base(conn)`.  The result `none` models the
panic of `value[key] = x` on a non-object, which the theorems show is never
reached. -/
def amend_id_token
    (parse : String → Except Unit JValue)
    (sign : Key → Url → Except String String)
    (buildBase : Except Error Url)
    (resp : OAuthResponse) (issuer : IssuerState) (issuer_name : String) :
    Option (Except Error OAuthResponse) :=
  match resp.get_body.map (fun body => parse body) with
  | none => some (.ok resp)
  | some (.error _) => some (.ok resp)
  | some (.ok value) =>
    match (jget value "access_token").as_str with
    | none => some (.ok resp)
    | some _access_token =>
      match issuer_url buildBase issuer_name with
      | .error e => some (.error e)
      | .ok base =>
        match sign issuer.key base with
        | .error err => some (.error (.Generic err))
        | .ok id_token =>
          match jset value "id_token" (.str id_token) with
          | none => none
          | some value2 => some (.ok (resp.body_json (jToString value2)))

/-- Request of the oxide_auth actix frontend, reduced to what the token
endpoint reads: the optional form body as key/value pairs. -/
structure OAuthRequest where
  body : Option (List (String × String))

/-- `QueryParameter::unique_value` of oxide_auth's `NormalizedParameter`: the
value of a key that occurs exactly once; a missing key or a key with several
(conflicting) values yields `none`. -/
def unique_value (params : List (String × String)) (key : String) : Option String :=
  match params.filter (fun p => p.fst == key) with
  | [p] => some p.snd
  | _ => none

/-- Consent policy injected per request (`FnSolicitor` closures of
src/endpoints/issuer.rs): authorize in the name of a fixed subject, or in
the name of the pre-grant client id. -/
inductive ConsentPolicy where
  | authorizedSubject (subject : String)
  | authorizedClientId
deriving DecidableEq, Repr

/-- Shape of a per-request endpoint composition over the stored engine:
`with_solicitor` injects a consent policy, `with_conninfo` attaches the
connection-information addon list. -/
inductive EndpointComposition where
  | stored
  | withSolicitor (inner : EndpointComposition) (policy : ConsentPolicy)
  | withConninfo (inner : EndpointComposition)
deriving DecidableEq, Repr

/-- Whether a composition injects any per-request consent policy. -/
def EndpointComposition.hasSolicitor : EndpointComposition → Bool
  | .stored => false
  | .withSolicitor _ _ => true
  | .withConninfo inner => inner.hasSolicitor

/-- Composition built by `auth_get` (src/endpoints/issuer.rs lines 87-95):
conninfo addon over a solicitor that authorizes the fixed subject Marvin. -/
def authGetComposition : EndpointComposition :=
  .withConninfo (.withSolicitor .stored (.authorizedSubject "Marvin"))

/-- Composition built by the client-credentials arm of `token` (lines
146-154): conninfo addon over a solicitor that authorizes the pre-grant
client id. -/
def tokenClientCredentialsComposition : EndpointComposition :=
  .withConninfo (.withSolicitor .stored .authorizedClientId)

/-- Composition built by the generic arm of `token` (line 161): only the
conninfo addon over the stored endpoint. -/
def tokenGenericComposition : EndpointComposition :=
  .withConninfo .stored

/-- Embeds the `token` handler of src/endpoints/issuer.rs.  The external
flow executions are passed in: `ccPrepare` is `ClientCredentialsFlow::prepare`
(its error mapped through `WebError::from`), `ccExecute` is `flow.execute`
as a function of the `allow_credentials_in_body` flag — the handler sets the
flag to `true` — and `genericRun` is `Token(req).run` over the
conninfo-extended endpoint. -/
def token (st : ApplicationState) (name : String) (req : OAuthRequest)
    (ccPrepare : Except WebError Unit)
    (ccExecute : Bool → Except WebError OAuthResponse)
    (genericRun : Except WebError OAuthResponse)
    (parse : String → Except Unit JValue)
    (sign : Key → Url → Except String String)
    (buildBase : Except Error Url) : Option (Except Error OAuthResponse) :=
  match st.issuer name with
  | none => some (.error (.UnknownIssuer name))
  | some issuer =>
    let grant_type := req.body.bind (fun body => unique_value body "grant_type")
    if grant_type = some "client_credentials" then
      match ccPrepare with
      | .error e => some (.error (.Web e))
      | .ok _ =>
        match ccExecute true with
        | .error e => some (.error (.Web e))
        | .ok resp => some (.ok resp)
    else
      match genericRun with
      | .error e => some (.error (.Web e))
      | .ok resp => amend_id_token parse sign buildBase resp issuer name

/-- Embeds the `discovery` handler of src/endpoints/issuer.rs: the issuer
URL is built first, then the tenant is resolved, then the discovery document
(an external collaborator, passed as `doc`) is assembled from the record and
the URL. -/
def discovery (st : ApplicationState) (buildBase : Except Error Url) (name : String)
    (doc : IssuerState → Url → Except Error JValue) : Except Error JValue :=
  match issuer_url buildBase name with
  | .error e => .error e
  | .ok base =>
    match st.issuer name with
    | none => .error (.UnknownIssuer name)
    | some issuer => doc issuer base

/-- Issuer record as registered at startup (`Issuer` of the issuer module);
only its name participates in registry construction. -/
structure Issuer where
  name : String
deriving DecidableEq, Repr

/-- Registry construction error of src/server/mod.rs. -/
inductive ServerError where
  | DuplicateIssuer (name : String)
deriving DecidableEq, Repr

/-- Server builder of src/server/mod.rs, reduced to the issuer registry. -/
structure Server where
  port : Nat
  issuers : List (String × Issuer)
deriving DecidableEq, Repr

/-- Embeds `Server::add_issuer`: the hash-map entry for the issuer's name is
inserted when vacant; an occupied entry leaves the map untouched and
reports `DuplicateIssuer`.  The pair returns the (possibly unchanged)
server next to the optional error. -/
def Server.add_issuer (s : Server) (issuer : Issuer) : Server × Option ServerError :=
  match List.lookup issuer.name s.issuers with
  | some _ => (s, some (.DuplicateIssuer issuer.name))
  | none => ({ s with issuers := s.issuers ++ [(issuer.name, issuer)] }, none)

/-! Concrete instances used by the witnesses. -/

/-- Base URL of the spec's running example, `http://localhost:8080`. -/
def base8080 : Url :=
  { scheme := "http", host := "localhost", port := some 8080,
    pathSegments := [], cannotBeABase := false }

/-- Concrete signing key. -/
def key0 : Key := { id := 0 }

/-- Concrete tenant record named `foo`. -/
def fooIssuer : IssuerState := { name := "foo", key := key0 }

/-- Registry holding the single tenant `foo`. -/
def appStateFoo : ApplicationState := { issuers := [("foo", fooIssuer)] }

/-- Concrete parse results used by the amendment witnesses. -/
def parseFail : String → Except Unit JValue := fun _ => .error ()

/-- Parse result that is a JSON array (valid JSON, not an object). -/
def parseArr : String → Except Unit JValue := fun _ => .ok (.arr [])

/-- Signer producing an assertion naming the issuer URL it is bound to. -/
def signW : Key → Url → Except String String := fun _ u => .ok ("jwt." ++ u.render)

/-- Response with no body. -/
def respNoBody : OAuthResponse := { status := 200, contentType := none, body := none }

/-- Response with a non-JSON textual body. -/
def respText : OAuthResponse := { status := 200, contentType := none, body := some "not json" }

/-- Response whose raw body the witness parser maps to a JSON object. -/
def respRaw : OAuthResponse :=
  { status := 200, contentType := some "application/json", body := some "raw" }

/-- Parser returning an object that already carries an `id_token` value, to
exhibit the overwrite. -/
def parseObjW : String → Except Unit JValue :=
  fun _ => .ok (.obj [("access_token", .str "at-1"), ("id_token", .str "old")])

/-- Protocol error used by the dispatch witnesses. -/
def webErr : WebError := { msg := "invalid_grant" }

/-- Client-credentials response produced when credentials in the body are
allowed. -/
def ccRespBody : OAuthResponse :=
  { status := 200, contentType := some "application/json", body := some "cc-with-credentials" }

/-- Client-credentials response produced when credentials in the body are
not allowed. -/
def ccRespPlain : OAuthResponse :=
  { status := 200, contentType := some "application/json", body := some "cc-plain" }

/-- Client-credentials flow execution that reacts to the
credentials-in-body flag, so the flag the handler passes is observable. -/
def ccExecuteW : Bool → Except WebError OAuthResponse :=
  fun allow => if allow then .ok ccRespBody else .ok ccRespPlain

/-- Client-credentials flow execution that fails with a protocol error. -/
def ccExecuteErrW : Bool → Except WebError OAuthResponse :=
  fun _ => .error webErr

/-- Token request carrying a unique client-credentials grant type. -/
def ccReq : OAuthRequest := { body := some [("grant_type", "client_credentials")] }

/-- Token request carrying no grant-type parameter. -/
def plainReq : OAuthRequest := { body := some [("code", "abc")] }

/-- Successful generic-flow response. -/
def genRespW : OAuthResponse :=
  { status := 200, contentType := some "application/json", body := some "generic" }

/-! Helper lemmas about exact-match lookup in an association list. -/

/-- Lookup finds the record of a registered name when keys are unique. -/
theorem lookup_of_mem {α : Type} {l : List (String × α)} {name : String} {rec : α}
    (hnd : (l.map Prod.fst).Nodup) (hmem : (name, rec) ∈ l) :
    List.lookup name l = some rec := by
  induction l with
  | nil => cases hmem
  | cons hd tl ih =>
    obtain ⟨k, v⟩ := hd
    simp only [List.map_cons, List.nodup_cons] at hnd
    rcases List.mem_cons.mp hmem with heq | htl
    · cases heq
      simp [List.lookup]
    · have hne : name ≠ k := by
        intro h
        apply hnd.1
        subst h
        exact List.mem_map.mpr ⟨(name, rec), htl, rfl⟩
      simpa [List.lookup, beq_eq_false_iff_ne.mpr hne] using ih hnd.2 htl

/-- Lookup of an unregistered name yields nothing. -/
theorem lookup_eq_none_of_not_mem {α : Type} {l : List (String × α)} {name : String}
    (h : name ∉ l.map Prod.fst) :
    List.lookup name l = none := by
  induction l with
  | nil => rfl
  | cons hd tl ih =>
    obtain ⟨k, v⟩ := hd
    simp only [List.map_cons, List.mem_cons] at h
    push_neg at h
    simpa [List.lookup, beq_eq_false_iff_ne.mpr h.1] using ih h.2

/-- Claim C6: for every tenant name and connection context, the issuer URL is
the resolved base URL with the tenant name appended as a single path segment,
and issuer-URL construction fails exactly when path-segment mutation is not
possible on the base URL (the cannot-be-a-base case). -/
theorem issuer_url_appends_tenant_segment (u : Url) (name : String) :
    (u.cannotBeABase = false → issuer_url (.ok u) name = .ok (u.pushSegment name)) ∧
    ((∃ e, issuer_url (.ok u) name = .error e) ↔ u.cannotBeABase = true) := by
  cases hu : u.cannotBeABase <;> simp [issuer_url, hu]

/-- Witness for C6: tenant `foo` on base `http://localhost:8080` resolves to
`http://localhost:8080/foo`, and the construction succeeds there. -/
theorem issuer_url_appends_tenant_segment_witness :
    base8080.cannotBeABase = false ∧
    issuer_url (.ok base8080) "foo" = .ok (base8080.pushSegment "foo") ∧
    (base8080.pushSegment "foo").render = "http://localhost:8080/foo" := by
  refine ⟨rfl, (issuer_url_appends_tenant_segment base8080 "foo").1 rfl, ?_⟩
  decide

/-- Claim C7: tenant lookup is by exact string match — every registered name
resolves to its record (given the registry's unique keys), and for an
unregistered name the token and discovery endpoints return the
tenant-not-found error instead of panicking or running the operation. -/
theorem resolve_exact_match (st : ApplicationState) (name : String)
    (hnd : (st.issuers.map Prod.fst).Nodup) :
    (∀ rec, (name, rec) ∈ st.issuers → st.issuer name = some rec) ∧
    (name ∉ st.issuers.map Prod.fst →
      st.issuer name = none ∧
      (∀ req ccPrepare ccExecute genericRun parse sign buildBase,
        token st name req ccPrepare ccExecute genericRun parse sign buildBase =
          some (.error (.UnknownIssuer name))) ∧
      (∀ u doc, u.cannotBeABase = false →
        discovery st (.ok u) name doc = .error (.UnknownIssuer name))) := by
  refine ⟨fun rec hmem => lookup_of_mem hnd hmem, fun habs => ?_⟩
  have hnone : st.issuer name = none := lookup_eq_none_of_not_mem habs
  refine ⟨hnone, fun req ccPrepare ccExecute genericRun parse sign buildBase => ?_,
    fun u doc hu => ?_⟩
  · simp [token, hnone]
  · simp [discovery, issuer_url, hu, hnone]

/-- Witness for C7: in the one-tenant registry, `foo` resolves to its record
and the token endpoint reports `bar` as an unknown issuer. -/
theorem resolve_exact_match_witness :
    appStateFoo.issuer "foo" = some fooIssuer ∧
    token appStateFoo "bar" { body := none } (.ok ()) (fun _ => .error { msg := "e" })
        (.error { msg := "e" }) (fun _ => .error ()) (fun _ _ => .error "e")
        (.ok base8080) =
      some (.error (.UnknownIssuer "bar")) := by
  constructor
  · exact (resolve_exact_match appStateFoo "foo" (by simp [appStateFoo])).1 fooIssuer
      (by simp [appStateFoo])
  · exact (((resolve_exact_match appStateFoo "bar" (by simp [appStateFoo])).2
      (by simp [appStateFoo, fooIssuer])).2.1 { body := none } (.ok ())
      (fun _ => .error { msg := "e" }) (.error { msg := "e" }) (fun _ => .error ())
      (fun _ _ => .error "e") (.ok base8080))

/-- Claim C8: adding an issuer whose name is already registered fails with a
DuplicateIssuer error carrying that name, and the registry is returned
unchanged, still holding the previously registered record. -/
theorem add_issuer_duplicate_rejected (s : Server) (issuer prev : Issuer)
    (hdup : List.lookup issuer.name s.issuers = some prev) :
    Server.add_issuer s issuer = (s, some (.DuplicateIssuer issuer.name)) ∧
    List.lookup issuer.name (Server.add_issuer s issuer).fst.issuers = some prev := by
  constructor <;> simp [Server.add_issuer, hdup]

/-- Witness for C8: registering a second issuer named `alpha` fails with
`DuplicateIssuer "alpha"` and keeps the first record. -/
theorem add_issuer_duplicate_rejected_witness :
    List.lookup "alpha" [("alpha", Issuer.mk "alpha")] = some (Issuer.mk "alpha") ∧
    Server.add_issuer { port := 8080, issuers := [("alpha", Issuer.mk "alpha")] }
        (Issuer.mk "alpha") =
      ({ port := 8080, issuers := [("alpha", Issuer.mk "alpha")] },
        some (.DuplicateIssuer "alpha")) := by
  refine ⟨rfl, ?_⟩
  exact (add_issuer_duplicate_rejected
    { port := 8080, issuers := [("alpha", Issuer.mk "alpha")] }
    (Issuer.mk "alpha") (Issuer.mk "alpha") rfl).1

/-- Claim C2: a token response whose body is absent, is not valid JSON, or
whose parsed JSON carries no `access_token` string field is returned by the
amendment step unchanged — same response, hence byte-for-byte the same
body — and the step never produces an error on such input. -/
theorem amend_id_token_pass_through
    (parse : String → Except Unit JValue) (sign : Key → Url → Except String String)
    (buildBase : Except Error Url) (resp : OAuthResponse) (issuer : IssuerState)
    (issuer_name : String) :
    (resp.body = none →
      amend_id_token parse sign buildBase resp issuer issuer_name = some (.ok resp)) ∧
    (∀ body, resp.body = some body → parse body = .error () →
      amend_id_token parse sign buildBase resp issuer issuer_name = some (.ok resp)) ∧
    (∀ body value, resp.body = some body → parse body = .ok value →
      (jget value "access_token").as_str = none →
      amend_id_token parse sign buildBase resp issuer issuer_name = some (.ok resp)) := by
  refine ⟨fun h => ?_, fun body hb hp => ?_, fun body value hb hp hs => ?_⟩
  · simp [amend_id_token, OAuthResponse.get_body, h]
  · simp [amend_id_token, OAuthResponse.get_body, hb, hp]
  · simp [amend_id_token, OAuthResponse.get_body, hb, hp, hs]

/-- Witness for C2: the pass-through on a missing body, on a non-JSON body,
and on a JSON body that is an array (no `access_token` field). -/
theorem amend_id_token_pass_through_witness :
    respNoBody.body = none ∧
    amend_id_token parseFail signW (.ok base8080) respNoBody fooIssuer "foo" =
      some (.ok respNoBody) ∧
    amend_id_token parseFail signW (.ok base8080) respText fooIssuer "foo" =
      some (.ok respText) ∧
    amend_id_token parseArr signW (.ok base8080) respText fooIssuer "foo" =
      some (.ok respText) := by
  refine ⟨rfl, ?_, ?_, ?_⟩
  · exact (amend_id_token_pass_through parseFail signW (.ok base8080) respNoBody fooIssuer
      "foo").1 rfl
  · exact (amend_id_token_pass_through parseFail signW (.ok base8080) respText fooIssuer
      "foo").2.1 "not json" rfl rfl
  · exact (amend_id_token_pass_through parseArr signW (.ok base8080) respText fooIssuer
      "foo").2.2 "not json" (.arr []) rfl rfl rfl

/-- Indexing that yields a string pins down the shape: the value is an object
whose field list stores that string under the key. -/
theorem as_str_jget_obj {v : JValue} {k s : String}
    (h : (jget v k).as_str = some s) :
    ∃ fields, v = .obj fields ∧ List.lookup k fields = some (.str s) := by
  cases v with
  | obj fields =>
    refine ⟨fields, rfl, ?_⟩
    cases hl : List.lookup k fields with
    | none => rw [jget, hl] at h; cases h
    | some x =>
      rw [jget, hl] at h
      cases x <;> simp [JValue.as_str] at h
      rw [h]
  | null => simp [jget, JValue.as_str] at h
  | bool b => simp [jget, JValue.as_str] at h
  | num n => simp [jget, JValue.as_str] at h
  | str s2 => simp [jget, JValue.as_str] at h
  | arr elems => simp [jget, JValue.as_str] at h

/-- Reading any key from a non-object JSON value yields null. -/
theorem jget_of_not_obj {v : JValue} (h : ∀ fields, v ≠ .obj fields) (k : String) :
    jget v k = .null := by
  cases v <;> first
    | rfl
    | exact absurd rfl (h _)

/-- Evaluation of the amendment step on a response without body. -/
theorem amend_eq_of_body_none
    (parse : String → Except Unit JValue) (sign : Key → Url → Except String String)
    (buildBase : Except Error Url) (resp : OAuthResponse) (issuer : IssuerState)
    (issuer_name : String) (hb : resp.body = none) :
    amend_id_token parse sign buildBase resp issuer issuer_name = some (.ok resp) := by
  simp [amend_id_token, OAuthResponse.get_body, hb]

/-- Evaluation of the amendment step on a body that fails to parse. -/
theorem amend_eq_of_parse_error
    (parse : String → Except Unit JValue) (sign : Key → Url → Except String String)
    (buildBase : Except Error Url) (resp : OAuthResponse) (issuer : IssuerState)
    (issuer_name : String) (body : String)
    (hb : resp.body = some body) (hp : parse body = .error ()) :
    amend_id_token parse sign buildBase resp issuer issuer_name = some (.ok resp) := by
  simp [amend_id_token, OAuthResponse.get_body, hb, hp]

/-- Evaluation of the amendment step when indexing for `access_token` yields
no string. -/
theorem amend_eq_of_no_access_token
    (parse : String → Except Unit JValue) (sign : Key → Url → Except String String)
    (buildBase : Except Error Url) (resp : OAuthResponse) (issuer : IssuerState)
    (issuer_name : String) (body : String) (value : JValue)
    (hb : resp.body = some body) (hp : parse body = .ok value)
    (hs : (jget value "access_token").as_str = none) :
    amend_id_token parse sign buildBase resp issuer issuer_name = some (.ok resp) := by
  simp [amend_id_token, OAuthResponse.get_body, hb, hp, hs]

/-- Evaluation of the amendment step when the body is an object holding an
`access_token` string: the step proceeds to URL resolution, signing against
the resolved issuer URL, and the `id_token` insertion. -/
theorem amend_eq_of_access_token
    (parse : String → Except Unit JValue) (sign : Key → Url → Except String String)
    (buildBase : Except Error Url) (resp : OAuthResponse) (issuer : IssuerState)
    (issuer_name : String) (body : String) (fields : List (String × JValue)) (tok : String)
    (hb : resp.body = some body) (hp : parse body = .ok (.obj fields))
    (hlk : List.lookup "access_token" fields = some (.str tok)) :
    amend_id_token parse sign buildBase resp issuer issuer_name =
      match issuer_url buildBase issuer_name with
      | .error e => some (.error e)
      | .ok base =>
        match sign issuer.key base with
        | .error err => some (.error (.Generic err))
        | .ok id_token =>
          some (.ok (resp.body_json
            (jToString (.obj (jinsertField fields "id_token" (.str id_token)))))) := by
  have hs : (jget (JValue.obj fields) "access_token").as_str = some tok := by
    simp [jget, hlk, JValue.as_str]
  simp only [amend_id_token, OAuthResponse.get_body, hb, Option.map_some', hp, hs, jset]

/-- Claim C10: the amendment step is total on every JSON body shape — it
never reaches the panicking object insertion (modelled by `none`) on any
input; a body parsing to non-object JSON is returned unchanged; and whenever
the step returns anything other than the unchanged response, the body was an
object holding an `access_token` string field, the only case in which the
mutating `id_token` insertion runs. -/
theorem amend_id_token_total
    (parse : String → Except Unit JValue) (sign : Key → Url → Except String String)
    (buildBase : Except Error Url) (resp : OAuthResponse) (issuer : IssuerState)
    (issuer_name : String) :
    amend_id_token parse sign buildBase resp issuer issuer_name ≠ none ∧
    (∀ body value, resp.body = some body → parse body = .ok value →
      (∀ fields, value ≠ .obj fields) →
      amend_id_token parse sign buildBase resp issuer issuer_name = some (.ok resp)) ∧
    (amend_id_token parse sign buildBase resp issuer issuer_name ≠ some (.ok resp) →
      ∃ body fields tok, resp.body = some body ∧ parse body = .ok (.obj fields) ∧
        List.lookup "access_token" fields = some (.str tok)) := by
  refine ⟨?_, fun body value hb hp hno => ?_, fun hne => ?_⟩
  · cases hb : resp.body with
    | none =>
      rw [amend_eq_of_body_none parse sign buildBase resp issuer issuer_name hb]
      simp
    | some body =>
      cases hp : parse body with
      | error e =>
        rw [amend_eq_of_parse_error parse sign buildBase resp issuer issuer_name body hb hp]
        simp
      | ok value =>
        cases hs : (jget value "access_token").as_str with
        | none =>
          rw [amend_eq_of_no_access_token parse sign buildBase resp issuer issuer_name
            body value hb hp hs]
          simp
        | some tok =>
          obtain ⟨fields, hv, hlk⟩ := as_str_jget_obj hs
          subst hv
          rw [amend_eq_of_access_token parse sign buildBase resp issuer issuer_name
            body fields tok hb hp hlk]
          cases hu2 : issuer_url buildBase issuer_name with
          | error e => simp
          | ok base =>
            cases hsg : sign issuer.key base with
            | error err => simp [hsg]
            | ok id_token => simp [hsg]
  · have hs : (jget value "access_token").as_str = none := by
      rw [jget_of_not_obj hno]
      rfl
    exact amend_eq_of_no_access_token parse sign buildBase resp issuer issuer_name
      body value hb hp hs
  · cases hb : resp.body with
    | none =>
      exact absurd (amend_eq_of_body_none parse sign buildBase resp issuer issuer_name hb) hne
    | some body =>
      cases hp : parse body with
      | error e =>
        exact absurd (amend_eq_of_parse_error parse sign buildBase resp issuer issuer_name
          body hb hp) hne
      | ok value =>
        cases hs : (jget value "access_token").as_str with
        | none =>
          exact absurd (amend_eq_of_no_access_token parse sign buildBase resp issuer
            issuer_name body value hb hp hs) hne
        | some tok =>
          obtain ⟨fields, hv, hlk⟩ := as_str_jget_obj hs
          exact ⟨body, fields, tok, rfl, hv ▸ hp, hlk⟩

/-- Witness for C10: an array-shaped JSON body neither panics nor changes
the response. -/
theorem amend_id_token_total_witness :
    amend_id_token parseArr signW (.ok base8080) respText fooIssuer "foo" ≠ none ∧
    amend_id_token parseArr signW (.ok base8080) respText fooIssuer "foo" =
      some (.ok respText) := by
  have h := amend_id_token_total parseArr signW (.ok base8080) respText fooIssuer "foo"
  exact ⟨h.1, h.2.1 "not json" (.arr []) rfl rfl (fun fields hx => JValue.noConfusion hx)⟩

/-- Claim C4: a successful generic-flow token response whose body is a JSON
object with an `access_token` string field gets a signed identity assertion
inserted under `id_token` (overwriting any prior value), the object is
re-serialized and the response body replaced with the new serialization, and
the assertion is produced against the tenant's resolved issuer URL — the
base URL with the tenant name appended. -/
theorem amend_id_token_inserts_assertion
    (parse : String → Except Unit JValue) (sign : Key → Url → Except String String)
    (resp : OAuthResponse) (issuer : IssuerState) (issuer_name : String)
    (body : String) (fields : List (String × JValue)) (tok : String) (u : Url)
    (idtok : String)
    (hb : resp.body = some body)
    (hp : parse body = .ok (.obj fields))
    (hacc : List.lookup "access_token" fields = some (.str tok))
    (hu : u.cannotBeABase = false)
    (hsign : sign issuer.key (u.pushSegment issuer_name) = .ok idtok) :
    amend_id_token parse sign (.ok u) resp issuer issuer_name =
      some (.ok (resp.body_json
        (jToString (.obj (jinsertField fields "id_token" (.str idtok)))))) := by
  rw [amend_eq_of_access_token parse sign (.ok u) resp issuer issuer_name body fields tok
    hb hp hacc]
  simp [issuer_url, hu, hsign]

/-- Witness for C4: the amendment overwrites the stale `id_token` with the
assertion bound to `http://localhost:8080/foo` and re-serializes. -/
theorem amend_id_token_inserts_assertion_witness :
    parseObjW "raw" =
      .ok (.obj [("access_token", .str "at-1"), ("id_token", .str "old")]) ∧
    amend_id_token parseObjW signW (.ok base8080) respRaw fooIssuer "foo" =
      some (.ok
        { status := 200, contentType := some "application/json",
          body := some
            "\x7b\"access_token\":\"at-1\",\"id_token\":\"jwt.http://localhost:8080/foo\"\x7d" }) := by
  have h := amend_id_token_inserts_assertion parseObjW signW respRaw fooIssuer "foo"
    "raw" [("access_token", .str "at-1"), ("id_token", .str "old")] "at-1" base8080
    "jwt.http://localhost:8080/foo" rfl rfl rfl rfl rfl
  refine ⟨rfl, ?_⟩
  rw [h]
  simp only [jToString, jObjToString, jinsertField, jStrQuote, respRaw,
    OAuthResponse.body_json, Option.some.injEq, Except.ok.injEq, OAuthResponse.mk.injEq]
  refine ⟨trivial, trivial, ?_⟩
  decide

/-- Claim C1: flow dispatch at the token endpoint is decided solely by the
unique `grant_type` form parameter — exactly when it is present, unique and
equal to `client_credentials` the client-credentials flow runs, with
credentials in the response body explicitly enabled (the execution receives
the flag `true`); otherwise, in particular when the parameter is absent or
has several conflicting values, the request falls through to the generic
token flow. -/
theorem token_dispatch_by_grant_type
    (st : ApplicationState) (name : String) (req : OAuthRequest)
    (ccPrepare : Except WebError Unit) (ccExecute : Bool → Except WebError OAuthResponse)
    (genericRun : Except WebError OAuthResponse)
    (parse : String → Except Unit JValue) (sign : Key → Url → Except String String)
    (buildBase : Except Error Url) (issuer : IssuerState)
    (hres : st.issuer name = some issuer) :
    (req.body.bind (fun body => unique_value body "grant_type") =
        some "client_credentials" →
      token st name req ccPrepare ccExecute genericRun parse sign buildBase =
        match ccPrepare with
        | .error e => some (.error (.Web e))
        | .ok _ =>
          match ccExecute true with
          | .error e => some (.error (.Web e))
          | .ok resp => some (.ok resp)) ∧
    (req.body.bind (fun body => unique_value body "grant_type") ≠
        some "client_credentials" →
      token st name req ccPrepare ccExecute genericRun parse sign buildBase =
        match genericRun with
        | .error e => some (.error (.Web e))
        | .ok resp => amend_id_token parse sign buildBase resp issuer name) ∧
    (req.body = none →
      req.body.bind (fun body => unique_value body "grant_type") = none) ∧
    (∀ params, req.body = some params →
      2 ≤ (params.filter (fun p => p.fst == "grant_type")).length →
      unique_value params "grant_type" = none) := by
  refine ⟨fun h => ?_, fun h => ?_, fun h => ?_, fun params hp hlen => ?_⟩
  · simp only [token, hres]
    rw [if_pos h]
  · simp only [token, hres]
    rw [if_neg h]
  · rw [h]
    rfl
  · unfold unique_value
    rcases hf : params.filter (fun p => p.fst == "grant_type") with _ | ⟨p, _ | ⟨q, t⟩⟩
    · rw [hf] at hlen
      simp at hlen
    · rw [hf] at hlen
      simp at hlen
    · rw [hf]

/-- Witness for C1: a request with a unique `grant_type=client_credentials`
parameter runs the client-credentials flow with the credentials-in-body flag
set, while a request without the parameter falls through to the generic
flow. -/
theorem token_dispatch_by_grant_type_witness :
    ccReq.body.bind (fun body => unique_value body "grant_type") =
      some "client_credentials" ∧
    token appStateFoo "foo" ccReq (.ok ()) ccExecuteW (.ok genRespW) parseFail signW
      (.ok base8080) = some (.ok ccRespBody) ∧
    plainReq.body.bind (fun body => unique_value body "grant_type") = none ∧
    token appStateFoo "foo" plainReq (.ok ()) ccExecuteW (.error webErr) parseFail signW
      (.ok base8080) = some (.error (.Web webErr)) := by
  have h := token_dispatch_by_grant_type appStateFoo "foo" ccReq (.ok ()) ccExecuteW
    (.ok genRespW) parseFail signW (.ok base8080) fooIssuer rfl
  have h2 := token_dispatch_by_grant_type appStateFoo "foo" plainReq (.ok ()) ccExecuteW
    (.error webErr) parseFail signW (.ok base8080) fooIssuer rfl
  refine ⟨by decide, ?_, by decide, ?_⟩
  · rw [h.1 (by decide)]
    rfl
  · rw [h2.2.1 (by decide)]

/-- Claim C3: a token request dispatched to the client-credentials flow gets
that flow's result back as-is — success and protocol error alike are
returned without any ID-token amendment, so the response body is exactly
what the flow produced and no `id_token` field is introduced. -/
theorem token_client_credentials_as_is
    (st : ApplicationState) (name : String) (req : OAuthRequest)
    (ccPrepare : Except WebError Unit) (ccExecute : Bool → Except WebError OAuthResponse)
    (genericRun : Except WebError OAuthResponse)
    (parse : String → Except Unit JValue) (sign : Key → Url → Except String String)
    (buildBase : Except Error Url) (issuer : IssuerState)
    (hres : st.issuer name = some issuer)
    (hgrant : req.body.bind (fun body => unique_value body "grant_type") =
      some "client_credentials") :
    (∀ resp, ccPrepare = .ok () → ccExecute true = .ok resp →
      token st name req ccPrepare ccExecute genericRun parse sign buildBase =
        some (.ok resp)) ∧
    (∀ e, ccPrepare = .ok () → ccExecute true = .error e →
      token st name req ccPrepare ccExecute genericRun parse sign buildBase =
        some (.error (.Web e))) ∧
    (∀ e, ccPrepare = .error e →
      token st name req ccPrepare ccExecute genericRun parse sign buildBase =
        some (.error (.Web e))) := by
  refine ⟨fun resp hprep hexec => ?_, fun e hprep hexec => ?_, fun e hprep => ?_⟩
  · simp only [token, hres]
    rw [if_pos hgrant, hprep, hexec]
  · simp only [token, hres]
    rw [if_pos hgrant, hprep, hexec]
  · simp only [token, hres]
    rw [if_pos hgrant, hprep]

/-- Witness for C3: the client-credentials flow's success is returned
verbatim and its protocol error is returned verbatim, with no amendment. -/
theorem token_client_credentials_as_is_witness :
    ccExecuteW true = .ok ccRespBody ∧
    token appStateFoo "foo" ccReq (.ok ()) ccExecuteW (.ok genRespW) parseFail signW
      (.ok base8080) = some (.ok ccRespBody) ∧
    token appStateFoo "foo" ccReq (.ok ()) ccExecuteErrW (.ok genRespW) parseFail signW
      (.ok base8080) = some (.error (.Web webErr)) := by
  have h := token_client_credentials_as_is appStateFoo "foo" ccReq (.ok ()) ccExecuteW
    (.ok genRespW) parseFail signW (.ok base8080) fooIssuer rfl (by decide)
  have h2 := token_client_credentials_as_is appStateFoo "foo" ccReq (.ok ()) ccExecuteErrW
    (.ok genRespW) parseFail signW (.ok base8080) fooIssuer rfl (by decide)
  exact ⟨rfl, h.1 ccRespBody rfl rfl, h2.2.1 webErr rfl rfl⟩

/-- Claim C5, counterexample: the generic arm of the token endpoint composes
the stored engine with the connection-info addon only — no consent policy is
injected there at all, let alone the fixed placeholder-subject policy; the
placeholder-subject policy appears only in the interactive authorization
endpoint's composition. -/
theorem token_generic_no_consent_policy :
    tokenGenericComposition.hasSolicitor = false ∧
    authGetComposition.hasSolicitor = true ∧
    tokenGenericComposition ≠
      EndpointComposition.withConninfo
        (.withSolicitor .stored (.authorizedSubject "Marvin")) := by
  refine ⟨rfl, rfl, ?_⟩
  decide

/-- Claim C5, amended: for every token request that is not a
client-credentials request, the generic token operation runs against the
stored engine extended only with the connection-info addon — no per-request
consent policy is attached — and on protocol error the error is returned
unmodified, with no amendment applied. -/
theorem token_generic_conninfo_only
    (st : ApplicationState) (name : String) (req : OAuthRequest)
    (ccPrepare : Except WebError Unit) (ccExecute : Bool → Except WebError OAuthResponse)
    (genericRun : Except WebError OAuthResponse)
    (parse : String → Except Unit JValue) (sign : Key → Url → Except String String)
    (buildBase : Except Error Url) (issuer : IssuerState)
    (hres : st.issuer name = some issuer)
    (hgrant : req.body.bind (fun body => unique_value body "grant_type") ≠
      some "client_credentials") :
    tokenGenericComposition = EndpointComposition.withConninfo .stored ∧
    tokenGenericComposition.hasSolicitor = false ∧
    (∀ e, genericRun = .error e →
      token st name req ccPrepare ccExecute genericRun parse sign buildBase =
        some (.error (.Web e))) := by
  refine ⟨rfl, rfl, fun e he => ?_⟩
  simp only [token, hres]
  rw [if_neg hgrant, he]

/-- Witness for C5 (amended): a request without `grant_type` whose generic
flow fails gets exactly that protocol error back. -/
theorem token_generic_conninfo_only_witness :
    plainReq.body.bind (fun body => unique_value body "grant_type") ≠
      some "client_credentials" ∧
    token appStateFoo "foo" plainReq (.ok ()) ccExecuteW (.error webErr) parseFail signW
      (.ok base8080) = some (.error (.Web webErr)) := by
  have h := token_generic_conninfo_only appStateFoo "foo" plainReq (.ok ()) ccExecuteW
    (.error webErr) parseFail signW (.ok base8080) fooIssuer rfl (by decide)
  exact ⟨by decide, h.2.2 webErr rfl⟩
